import Mathlib

/-!
Verification of the CodeProof snapshot engine: a shallow embedding of the
TypeScript sources (src/snapshot/detector, src/snapshot/engine,
src/snapshot/storage, src/snapshot/replay-recorder, src/flags/analyzer)
into Lean 4, together with proofs of the specified properties.

External collaborators (the SHA-256 digest, jsdiff's createPatch, the
VS Code workspace, minimatch) are modelled as function parameters; all
algorithmic code is translated statement by statement from the source.
-/

namespace CodeProof

/-- Classification of a code change (src/snapshot/types.ts, ChangeType). -/
inductive ChangeType where
  | typing
  | paste
  | delete
  | refactor
deriving DecidableEq, Repr

/-- Severity levels for flags (src/snapshot/types.ts, FlagSeverity). -/
inductive FlagSeverity where
  | high
  | medium
  | low
  | info
deriving DecidableEq, Repr

/-- Categories for flags (src/snapshot/types.ts, FlagCategory). -/
inductive FlagCategory where
  | large_paste
  | rapid_completion
  | fully_formed_code
  | long_gap
  | style_inconsistency
  | no_debugging
  | unusual_typing_speed
deriving DecidableEq, Repr

/-- One element of a TextDocumentChangeEvent's contentChanges array: the
inserted text and the length of the replaced range (vscode
TextDocumentContentChangeEvent, as consumed by ChangeDetector.detect). -/
structure TextChange where
  text : String
  rangeLength : Nat
deriving DecidableEq, Repr

/-- Default minimum characters added in a single change to classify as a
paste (src/snapshot/detector.ts, DEFAULT_PASTE_CHAR_THRESHOLD). -/
def DEFAULT_PASTE_CHAR_THRESHOLD : Nat := 50

/-- Minimum characters removed in a single change to classify as a delete
(src/snapshot/detector.ts, DELETE_CHAR_THRESHOLD). -/
def DELETE_CHAR_THRESHOLD : Nat := 30

/-- ChangeDetector.detect (src/snapshot/detector.ts): classifies a text
document change event, given the current paste threshold.  The event is
represented by its contentChanges list. -/
def detect (pasteThreshold : Nat) (changes : List TextChange) : ChangeType :=
  if changes.length = 0 then
    ChangeType.typing
  else if changes.length > 1 then
    ChangeType.refactor
  else
    let change := changes.headD { text := "", rangeLength := 0 }
    let charsAdded := change.text.length
    let charsRemoved := change.rangeLength
    if charsAdded ≥ pasteThreshold then
      ChangeType.paste
    else if charsRemoved ≥ DELETE_CHAR_THRESHOLD ∧ charsAdded = 0 then
      ChangeType.delete
    else
      ChangeType.typing

/-- The three columns of the snapshots table read by
SnapshotStorage.verifyHashChain (src/snapshot/storage.ts): chain_hash,
content_hash and timestamp of one stored snapshot row. -/
structure ChainRow where
  chain_hash : String
  content_hash : String
  timestamp : String
deriving DecidableEq, Repr

/-- Insertion of a row into a list sorted by ascending timestamp
(lexicographic String order, as SQLite orders TEXT columns). -/
def insertByTimestamp (r : ChainRow) : List ChainRow → List ChainRow
  | [] => [r]
  | x :: xs =>
      if r.timestamp ≤ x.timestamp then r :: x :: xs
      else x :: insertByTimestamp r xs

/-- The ORDER BY timestamp ASC of the verifyHashChain query: sorts the
stored rows by ascending timestamp. -/
def sortByTimestamp : List ChainRow → List ChainRow
  | [] => []
  | x :: xs => insertByTimestamp x (sortByTimestamp xs)

/-- The loop body of SnapshotStorage.verifyHashChain: starting from the
seed previousChainHash, recompute the expected hash of each row in order
and compare with the stored chain_hash; on a mismatch return false, else
advance previousChainHash to the stored chain_hash. H is the SHA-256 hex
digest collaborator. -/
def chainLoop (H : String → String) (previousChainHash : String) :
    List ChainRow → Bool
  | [] => true
  | snapshot :: rest =>
      let expectedHash := H (previousChainHash ++ snapshot.content_hash ++ snapshot.timestamp)
      if expectedHash ≠ snapshot.chain_hash then false
      else chainLoop H snapshot.chain_hash rest

/-- SnapshotStorage.verifyHashChain (src/snapshot/storage.ts): reads all
stored rows in ascending timestamp order and recomputes the chain from
the empty-string seed. -/
def verifyHashChain (H : String → String) (stored : List ChainRow) : Bool :=
  chainLoop H "" (sortByTimestamp stored)

/-- The chain hash the specification expects at position i of a sorted row
list: the stored chain_hash of the predecessor, or the empty-string seed
at position 0. -/
def prevChainHash (rows : List ChainRow) : Nat → String
  | 0 => ""
  | j + 1 => ((rows.get? j).map ChainRow.chain_hash).getD ""

/-- Specification predicate: every stored chain_hash at position i equals
digest(chain_hash of predecessor ++ content_hash_i ++ timestamp_i), with
the empty-string seed at i = 0. -/
def chainSpec (H : String → String) (rows : List ChainRow) : Prop :=
  ∀ i, ∀ h : i < rows.length,
    (rows.get ⟨i, h⟩).chain_hash =
      H (prevChainHash rows i ++ (rows.get ⟨i, h⟩).content_hash ++ (rows.get ⟨i, h⟩).timestamp)

/-! ## Snapshot engine (src/snapshot/engine.ts)

JavaScript Maps are modelled as association lists preserving insertion
order: Map.get is lookupA, Map.set is setA (replace in place when the key
exists, append otherwise). -/

/-- Map.get on an insertion-ordered association list. -/
def lookupA {α : Type} : List (String × α) → String → Option α
  | [], _ => none
  | (k, v) :: rest, key => if key = k then some v else lookupA rest key

/-- Map.set on an insertion-ordered association list: replaces the value
in place if the key exists, appends a new entry otherwise. -/
def setA {α : Type} : List (String × α) → String → α → List (String × α)
  | [], key, v => [(key, v)]
  | (k, w) :: rest, key, v =>
      if key = k then (key, v) :: rest else (k, w) :: setA rest key v

/-- Priority order for change types — higher value wins when aggregating
(src/snapshot/engine.ts, CHANGE_TYPE_PRIORITY). -/
def CHANGE_TYPE_PRIORITY : ChangeType → Nat
  | ChangeType.typing => 0
  | ChangeType.delete => 1
  | ChangeType.refactor => 2
  | ChangeType.paste => 3

/-- Accumulated change data for a file between snapshots
(src/snapshot/engine.ts, PendingChange). -/
structure PendingChange where
  changeType : ChangeType
  charsAdded : Nat
  charsRemoved : Nat
deriving DecidableEq, Repr

/-- A single snapshot of file state at a point in time
(src/snapshot/types.ts, Snapshot). -/
structure Snapshot where
  id : String
  timestamp : String
  filename : String
  content_hash : String
  diff : String
  lines_added : Nat
  lines_removed : Nat
  total_lines : Nat
  change_type : ChangeType
  change_size : Nat
  chain_hash : String
  session_id : String
deriving DecidableEq, Repr

/-- The mutable fields of SnapshotEngine that the modelled operations
read or write. fileContents and pendingChanges are the two Maps keyed by
fsPath; lastChainHash is the chain cursor. -/
structure EngineState where
  isRunning : Bool
  isPaused : Bool
  fileContents : List (String × String)
  pendingChanges : List (String × PendingChange)
  lastChainHash : String
  snapshotCount : Nat
  sessionId : String
deriving DecidableEq, Repr

/-- The external collaborators of SnapshotEngine: the SHA-256 hex digest
H, jsdiff's createPatch (applied as createPatch relPath prev curr with
empty header strings), vscode.workspace.asRelativePath, the exclude-glob
matcher (minimatch over the configured patterns), the open text documents
(fsPath to getText()), the storage saveSnapshot call (throwing modelled
as Except.error), the clock toISOString and randomUUID (indexed by the
current snapshot count, as each call may return a fresh value), and the
detector's paste threshold. -/
structure EngineCtx where
  H : String → String
  createPatch : String → String → String → String
  relPath : String → String
  excluded : String → Bool
  docs : List (String × String)
  save : Snapshot → Except String Unit
  now : Nat → String
  uuid : Nat → String
  pasteThreshold : Nat

/-- vscode TextDocument.lineCount for a document with the given text. -/
def lineCount (content : String) : Nat := (content.splitOn "\n").length

/-- SnapshotEngine.countDiffLines: counts lines added and removed from a
unified diff string, excluding the file-header lines that start with
three plus or three minus signs. -/
def countDiffLines (diff : String) : Nat × Nat :=
  (diff.splitOn "\n").foldl
    (fun acc line =>
      if line.startsWith "+" ∧ ¬ line.startsWith "+++" then (acc.1 + 1, acc.2)
      else if line.startsWith "-" ∧ ¬ line.startsWith "---" then (acc.1, acc.2 + 1)
      else acc)
    (0, 0)

/-- The try/catch around this.storage.saveSnapshot inside emitSnapshot:
the save is attempted, a thrown error is logged (console.error) and
otherwise discarded, and execution continues with k either way. -/
def trySave (save : Snapshot → Except String Unit) (s : Snapshot)
    {α : Type} (k : α) : α :=
  match save s with
  | Except.error _ => k
  | Except.ok _ => k

/-- SnapshotEngine.emitSnapshot (src/snapshot/engine.ts): computes the
unified diff, hash chain and metadata for a single file and fires the
snapshot.  Returns the updated state and the fired snapshot (none when
the document is closed or its content is unchanged).  A thrown exception
would appear as Except.error; the saveSnapshot call is wrapped in the
source in a try/catch that only logs, so its failure is discarded. -/
def emitSnapshot (ctx : EngineCtx) (st : EngineState) (filePath : String)
    (pending : PendingChange) : Except String (EngineState × Option Snapshot) :=
  match lookupA ctx.docs filePath with
  | none => Except.ok (st, none)
  | some currentContent =>
    let previousContent := (lookupA st.fileContents filePath).getD ""
    if currentContent = previousContent then Except.ok (st, none)
    else
      let relativePath := ctx.relPath filePath
      let unifiedDiff := ctx.createPatch relativePath previousContent currentContent
      let counts := countDiffLines unifiedDiff
      let contentHash := ctx.H currentContent
      let timestamp := ctx.now st.snapshotCount
      let chainHash := ctx.H (st.lastChainHash ++ contentHash ++ timestamp)
      let snapshot : Snapshot :=
        { id := ctx.uuid st.snapshotCount
          timestamp := timestamp
          filename := relativePath
          content_hash := contentHash
          diff := unifiedDiff
          lines_added := counts.1
          lines_removed := counts.2
          total_lines := lineCount currentContent
          change_type := pending.changeType
          change_size := pending.charsAdded + pending.charsRemoved
          chain_hash := chainHash
          session_id := st.sessionId }
      let st1 : EngineState :=
        { st with
          lastChainHash := chainHash
          fileContents := setA st.fileContents filePath currentContent
          snapshotCount := st.snapshotCount + 1 }
      trySave ctx.save snapshot (Except.ok (st1, some snapshot))

/-- SnapshotEngine.processSnapshots: on a tick, skipped entirely while
paused or with nothing pending; otherwise emits a snapshot per pending
file (each emission isolated by a try/catch that logs and continues) and
clears the pending map. -/
def processSnapshots (ctx : EngineCtx) (st : EngineState) :
    EngineState × List Snapshot :=
  if st.isPaused = true ∨ st.pendingChanges = [] then (st, [])
  else
    let folded := st.pendingChanges.foldl
      (fun (acc : EngineState × List Snapshot) kv =>
        match emitSnapshot ctx acc.1 kv.1 kv.2 with
        | Except.ok (s, some snap) => (s, acc.2 ++ [snap])
        | Except.ok (s, none) => (s, acc.2)
        | Except.error _ => acc)
      (st, [])
    ({ folded.1 with pendingChanges := [] }, folded.2)

/-- SnapshotEngine.stop: flushes remaining pending changes via
processSnapshots, ends the session (a storage call with no engine-state
effect), resets the flags and clears both maps.  Returns the final state
and the snapshots emitted during the final flush. -/
def stop (ctx : EngineCtx) (st : EngineState) : EngineState × List Snapshot :=
  if st.isRunning = false then (st, [])
  else
    let flushed := processSnapshots ctx st
    ({ flushed.1 with
        isRunning := false
        isPaused := false
        fileContents := []
        pendingChanges := [] },
      flushed.2)

/-- A vscode TextDocumentChangeEvent as consumed by
SnapshotEngine.handleDocumentChange: the document's URI scheme and
fsPath, and the contentChanges array. -/
structure DocEvent where
  scheme : String
  fsPath : String
  contentChanges : List TextChange
deriving DecidableEq, Repr

/-- Total characters added by an event (sum of change.text.length). -/
def eventCharsAdded (ev : DocEvent) : Nat :=
  ev.contentChanges.foldl (fun acc c => acc + c.text.length) 0

/-- Total characters removed by an event (sum of change.rangeLength). -/
def eventCharsRemoved (ev : DocEvent) : Nat :=
  ev.contentChanges.foldl (fun acc c => acc + c.rangeLength) 0

/-- SnapshotEngine.handleDocumentChange: classifies the event and
accumulates it into the pending-changes map, keeping the
higher-priority change type and adding to the cumulative counters;
seeds the baseline content with the empty string the first time a file
is seen.  Events with no changes, non-file schemes and excluded paths
are ignored. -/
def handleDocumentChange (ctx : EngineCtx) (st : EngineState) (ev : DocEvent) :
    EngineState :=
  if ev.contentChanges = [] then st
  else if ev.scheme ≠ "file" then st
  else if ctx.excluded (ctx.relPath ev.fsPath) = true then st
  else
    let filePath := ev.fsPath
    let changeType := detect ctx.pasteThreshold ev.contentChanges
    let charsAdded := eventCharsAdded ev
    let charsRemoved := eventCharsRemoved ev
    let fileContents :=
      match lookupA st.fileContents filePath with
      | some _ => st.fileContents
      | none => setA st.fileContents filePath ""
    let pendingChanges :=
      match lookupA st.pendingChanges filePath with
      | some existing =>
          setA st.pendingChanges filePath
            { changeType :=
                if CHANGE_TYPE_PRIORITY changeType > CHANGE_TYPE_PRIORITY existing.changeType
                then changeType else existing.changeType
              charsAdded := existing.charsAdded + charsAdded
              charsRemoved := existing.charsRemoved + charsRemoved }
      | none =>
          setA st.pendingChanges filePath
            { changeType := changeType
              charsAdded := charsAdded
              charsRemoved := charsRemoved }
    { st with fileContents := fileContents, pendingChanges := pendingChanges }

/-! ## Replay recorder (src/snapshot/replay-recorder.ts) -/

/-- A position within a document (vscode Position: line and character). -/
structure ReplayPos where
  line : Nat
  character : Nat
deriving DecidableEq, Repr

/-- One change of a ReplayEvent (src/snapshot/types.ts, ReplayChange):
the replaced range, the inserted text and the replaced length. -/
structure ReplayChange where
  rangeStart : ReplayPos
  rangeEnd : ReplayPos
  text : String
  rangeLength : Nat
deriving DecidableEq, Repr

/-- A buffered replay event (src/snapshot/types.ts, ReplayEvent):
Date.now() timestamp in milliseconds, workspace-relative filename and
the list of changes. -/
structure ReplayEvent where
  timestamp : Int
  filename : String
  changes : List ReplayChange
deriving DecidableEq, Repr

/-- Maximum time window in milliseconds for coalescing sequential
single-character inserts (src/snapshot/replay-recorder.ts,
COALESCE_WINDOW_MS). -/
def COALESCE_WINDOW_MS : Int := 500

/-- ReplayRecorder.tryCoalesce: attempts to merge a new event into the
last buffered event.  Returns the updated buffer on success (the source
mutates the last event in place), none when any guard fails. -/
def tryCoalesce (buffer : List ReplayEvent) (newEvent : ReplayEvent) :
    Option (List ReplayEvent) :=
  match buffer.getLast? with
  | none => none
  | some lastEvent =>
    if lastEvent.filename ≠ newEvent.filename then none
    else if newEvent.timestamp - lastEvent.timestamp > COALESCE_WINDOW_MS then none
    else
      match lastEvent.changes, newEvent.changes with
      | [lastChange], [newChange] =>
          if lastChange.rangeLength ≠ 0 ∨ newChange.rangeLength ≠ 0 then none
          else if lastChange.rangeStart.line ≠ newChange.rangeStart.line then none
          else if newChange.rangeStart.character ≠
              lastChange.rangeStart.character + lastChange.text.length then none
          else if newChange.text.length ≠ 1 then none
          else
            some (buffer.dropLast ++
              [{ lastEvent with
                  changes :=
                    [{ lastChange with
                        text := lastChange.text ++ newChange.text
                        rangeEnd := newChange.rangeEnd }] }])
      | _, _ => none

/-- The buffering step of ReplayRecorder.handleDocumentChange: coalesce
into the last buffered event when possible, otherwise append the new
event to the buffer. -/
def bufferEvent (buffer : List ReplayEvent) (newEvent : ReplayEvent) :
    List ReplayEvent :=
  match tryCoalesce buffer newEvent with
  | some merged => merged
  | none => buffer ++ [newEvent]

/-- ReplayRecorder.handleDocumentChange: ignores empty, non-file and
excluded events, then buffers (possibly coalescing) the replay event
built from the change list at the current Date.now(). -/
def replayHandleDocumentChange (excluded : String → Bool)
    (relPath : String → String) (nowMs : Int) (buffer : List ReplayEvent)
    (scheme fsPath : String) (changes : List ReplayChange) :
    List ReplayEvent :=
  if changes = [] then buffer
  else if scheme ≠ "file" then buffer
  else if excluded (relPath fsPath) = true then buffer
  else
    bufferEvent buffer
      { timestamp := nowMs, filename := relPath fsPath, changes := changes }

/-! ## Flag analyzer (src/flags/analyzer.ts)

The Flag model keeps the fields the detection rules compute from the
snapshots: category, severity, timestamp, filename and snapshotIds.  The
id (crypto.randomUUID) and the two templated presentation strings
(description, suggestedContext) carry no analysed data and are omitted.
Date parsing (new Date(ts).getTime()) is the collaborator gt, mapping an
ISO-8601 timestamp string to epoch milliseconds. -/

/-- A flag indicating a potentially suspicious pattern
(src/snapshot/types.ts, Flag), restricted to its analysed fields. -/
structure Flag where
  category : FlagCategory
  severity : FlagSeverity
  timestamp : String
  filename : String
  snapshotIds : List String
deriving DecidableEq, Repr

/-- Minimum lines added in a single snapshot to flag as LARGE_PASTE. -/
def LARGE_PASTE_THRESHOLD : Nat := 30

/-- Minimum lines for a code block to be considered complex. -/
def FULLY_FORMED_LINE_THRESHOLD : Nat := 50

/-- Minimum inactivity gap in ms (2 hours). -/
def LONG_GAP_MS : Int := 2 * 60 * 60 * 1000

/-- Window after a long gap (30 minutes, in ms). -/
def POST_GAP_WINDOW_MS : Int := 30 * 60 * 1000

/-- Minimum lines added after a long gap. -/
def POST_GAP_LINE_THRESHOLD : Nat := 30

/-- Minimum total lines added to a file for the NO_DEBUGGING check. -/
def NO_DEBUGGING_LINE_THRESHOLD : Nat := 100

/-- Sustained characters-per-minute threshold for UNUSUAL_SPEED. -/
def UNUSUAL_SPEED_CPM : Nat := 200

/-- Window size in ms for measuring sustained typing speed (5 minutes). -/
def SPEED_WINDOW_MS : Int := 5 * 60 * 1000

/-- Minimum total lines for RAPID_COMPLETION. -/
def RAPID_COMPLETION_LINE_THRESHOLD : Nat := 200

/-- Maximum elapsed time in ms for RAPID_COMPLETION (1 hour). -/
def RAPID_COMPLETION_TIME_MS : Int := 60 * 60 * 1000

/-- Sum of lines_added over a snapshot list. -/
def sumLinesAdded (snaps : List Snapshot) : Nat :=
  snaps.foldl (fun acc s => acc + s.lines_added) 0

/-- Sum of lines_removed over a snapshot list. -/
def sumLinesRemoved (snaps : List Snapshot) : Nat :=
  snaps.foldl (fun acc s => acc + s.lines_removed) 0

/-- Sum of change_size over a snapshot list. -/
def sumChangeSize (snaps : List Snapshot) : Nat :=
  snaps.foldl (fun acc s => acc + s.change_size) 0

/-- FlagAnalyzer.detectLargePaste: one medium flag per snapshot with
change_type paste and lines_added at or above the threshold. -/
def detectLargePaste (snapshots : List Snapshot) : List Flag :=
  snapshots.filterMap (fun snapshot =>
    if snapshot.lines_added ≥ LARGE_PASTE_THRESHOLD ∧ snapshot.change_type = ChangeType.paste then
      some
        { category := FlagCategory.large_paste
          severity := FlagSeverity.medium
          timestamp := snapshot.timestamp
          filename := snapshot.filename
          snapshotIds := [snapshot.id] }
    else none)

/-- FlagAnalyzer.detectFullyFormedCode: one high flag per snapshot with
lines_added at or above 50 whose filename never appears in a later
snapshot. -/
def detectFullyFormedCode : List Snapshot → List Flag
  | [] => []
  | snapshot :: rest =>
      (if snapshot.lines_added ≥ FULLY_FORMED_LINE_THRESHOLD ∧
          ¬ (rest.any (fun later => later.filename == snapshot.filename)) = true then
        [{ category := FlagCategory.fully_formed_code
           severity := FlagSeverity.high
           timestamp := snapshot.timestamp
           filename := snapshot.filename
           snapshotIds := [snapshot.id] }]
      else []) ++ detectFullyFormedCode rest

/-- The loop of FlagAnalyzer.detectLongGapThenCompletion over the
consecutive pairs (prev, curr): when the gap reaches 2 hours, the
snapshots whose timestamps fall within 30 minutes after curr (the inner
loop, which breaks at the first timestamp past the window) are summed
and flagged when they add at least 30 lines. -/
def longGapLoop (gt : String → Int) (prev : Snapshot) :
    List Snapshot → List Flag
  | [] => []
  | curr :: rest =>
      let gap := gt curr.timestamp - gt prev.timestamp
      (if gap < LONG_GAP_MS then []
       else
        let windowEnd := gt curr.timestamp + POST_GAP_WINDOW_MS
        let window := (curr :: rest).takeWhile (fun s => decide (gt s.timestamp ≤ windowEnd))
        let linesAddedAfterGap := sumLinesAdded window
        let relevantSnapshotIds := window.map Snapshot.id
        if linesAddedAfterGap ≥ POST_GAP_LINE_THRESHOLD then
          [{ category := FlagCategory.long_gap
             severity := FlagSeverity.medium
             timestamp := curr.timestamp
             filename := curr.filename
             snapshotIds := relevantSnapshotIds }]
        else []) ++ longGapLoop gt curr rest

/-- FlagAnalyzer.detectLongGapThenCompletion. -/
def detectLongGapThenCompletion (gt : String → Int) : List Snapshot → List Flag
  | [] => []
  | first :: rest => longGapLoop gt first rest

/-- The distinct filenames of a snapshot list in first-occurrence order
(the key order of the JS Map built by the grouping loops). -/
def fileNames (snapshots : List Snapshot) : List String :=
  snapshots.foldl
    (fun acc s => if s.filename ∈ acc then acc else acc ++ [s.filename]) []

/-- The grouping loop shared by detectStyleInconsistency and
detectNoDebugging: snapshots grouped by filename, keys in
first-insertion order, each group in original order (exactly the JS Map
of arrays the source builds). -/
def groupByFile (snapshots : List Snapshot) : List (String × List Snapshot) :=
  (fileNames snapshots).map
    (fun fn => (fn, snapshots.filter (fun s => s.filename = fn)))

/-- Count of the non-overlapping matches of the camelCase regex (a
lowercase ASCII letter directly followed by an uppercase one) in a
character list, scanning left to right as a JS global regex does. -/
def countCamel : List Char → Nat
  | a :: b :: rest =>
      if a.isLower ∧ b.isUpper then countCamel rest + 1
      else countCamel (b :: rest)
  | _ => 0

/-- Count of the non-overlapping matches of the snake_case regex (a
lowercase ASCII letter, an underscore, a lowercase letter), scanning
left to right as a JS global regex does. -/
def countSnake : List Char → Nat
  | a :: b :: c :: rest =>
      if a.isLower ∧ b = '_' ∧ c.isLower then countSnake rest + 1
      else countSnake (b :: c :: rest)
  | _ => 0

/-- The added lines of a snapshot's diff (lines starting with one plus
sign but not the file header). -/
def addedLines (snapshot : Snapshot) : List String :=
  (snapshot.diff.splitOn "\n").filter
    (fun line => line.startsWith "+" ∧ ¬ line.startsWith "+++")

/-- FlagAnalyzer.detectNamingConvention: counts camelCase and snake_case
matches over all added diff lines; below 5 total matches the result is
inconclusive, otherwise camelCase above a 0.7 camel ratio and snake_case
below 0.3. -/
def detectNamingConvention (snapshots : List Snapshot) : Option String :=
  let counts := snapshots.foldl
    (fun acc s =>
      (addedLines s).foldl
        (fun a line => (a.1 + countCamel line.data, a.2 + countSnake line.data))
        acc)
    ((0 : Nat), (0 : Nat))
  let total := counts.1 + counts.2
  if total < 5 then none
  else
    -- camelRatio = camelCount / total; with total positive the source's
    -- comparisons camelRatio > 0.7 and camelRatio < 0.3 are exactly the
    -- integer comparisons 10 * camelCount > 7 * total and
    -- 10 * camelCount < 3 * total.
    if 10 * counts.1 > 7 * total then some "camelCase"
    else if 10 * counts.1 < 3 * total then some "snake_case"
    else none

/-- FlagAnalyzer.detectStyleInconsistency: per file with at least two
snapshots, split chronologically at the ceiling of half the length; if
both halves have a conclusive and different dominant convention, flag
the whole file's snapshots. -/
def detectStyleInconsistency (snapshots : List Snapshot) : List Flag :=
  (groupByFile snapshots).flatMap (fun grp =>
    let fileSnaps := grp.2
    if fileSnaps.length < 2 then []
    else
      let half := (fileSnaps.length + 1) / 2
      let earlySnaps := fileSnaps.take half
      let lateSnaps := fileSnaps.drop half
      match detectNamingConvention earlySnaps, detectNamingConvention lateSnaps, lateSnaps with
      | some earlyStyle, some lateStyle, lateFirst :: _ =>
          if earlyStyle ≠ lateStyle then
            [{ category := FlagCategory.style_inconsistency
               severity := FlagSeverity.medium
               timestamp := lateFirst.timestamp
               filename := grp.1
               snapshotIds := fileSnaps.map Snapshot.id }]
          else []
      | _, _, _ => [])

/-- FlagAnalyzer.detectNoDebugging: per file, flag when the cumulative
lines added reach 100 with zero lines removed; the flag carries the
file's first timestamp and all its snapshot ids. -/
def detectNoDebugging (snapshots : List Snapshot) : List Flag :=
  (groupByFile snapshots).flatMap (fun grp =>
    match grp.2 with
    | [] => []
    | first :: _ =>
        let totalAdded := sumLinesAdded grp.2
        let totalRemoved := sumLinesRemoved grp.2
        if totalAdded ≥ NO_DEBUGGING_LINE_THRESHOLD ∧ totalRemoved = 0 then
          [{ category := FlagCategory.no_debugging
             severity := FlagSeverity.low
             timestamp := first.timestamp
             filename := grp.1
             snapshotIds := grp.2.map Snapshot.id }]
        else [])

/-- The loop of FlagAnalyzer.detectUnusualSpeed: every snapshot starts a
5-minute window (the inner loop breaks at the first timestamp past the
window); a window summing to 200 or more characters per minute with at
least two snapshots is flagged, deduplicated by starting snapshot id. -/
def unusualSpeedLoop (gt : String → Int) :
    List Snapshot → List String → List Flag
  | [], _ => []
  | s :: rest, flaggedWindows =>
      let windowStart := gt s.timestamp
      let windowEnd := windowStart + SPEED_WINDOW_MS
      let window := (s :: rest).takeWhile (fun t => decide (gt t.timestamp ≤ windowEnd))
      let totalChars := sumChangeSize window
      let windowSnapshotIds := window.map Snapshot.id
      -- charsPerMinute = totalChars / windowDurationMinutes, where
      -- windowDurationMinutes = SPEED_WINDOW_MS / 60000 = 5; for these
      -- integers the source's comparison charsPerMinute >= the CPM
      -- threshold is exactly totalChars >= threshold * 5.
      if totalChars ≥ UNUSUAL_SPEED_CPM * 5 ∧ windowSnapshotIds.length ≥ 2 then
        if s.id ∈ flaggedWindows then unusualSpeedLoop gt rest flaggedWindows
        else
          { category := FlagCategory.unusual_typing_speed
            severity := FlagSeverity.low
            timestamp := s.timestamp
            filename := s.filename
            snapshotIds := windowSnapshotIds } ::
          unusualSpeedLoop gt rest (s.id :: flaggedWindows)
      else unusualSpeedLoop gt rest flaggedWindows

/-- FlagAnalyzer.detectUnusualSpeed. -/
def detectUnusualSpeed (gt : String → Int) (snapshots : List Snapshot) :
    List Flag :=
  unusualSpeedLoop gt snapshots []

/-- FlagAnalyzer.detectRapidCompletion: with fewer than two snapshots
the rule abstains; otherwise one low flag over all snapshots when the
elapsed time from first to last is at most an hour and the total lines
added reach 200. -/
def detectRapidCompletion (gt : String → Int) (snapshots : List Snapshot) :
    List Flag :=
  if snapshots.length < 2 then []
  else
    match snapshots.head?, snapshots.getLast? with
    | some first, some last =>
        let elapsed := gt last.timestamp - gt first.timestamp
        let totalLinesAdded := sumLinesAdded snapshots
        if elapsed ≤ RAPID_COMPLETION_TIME_MS ∧
            totalLinesAdded ≥ RAPID_COMPLETION_LINE_THRESHOLD then
          [{ category := FlagCategory.rapid_completion
             severity := FlagSeverity.low
             timestamp := first.timestamp
             filename := first.filename
             snapshotIds := snapshots.map Snapshot.id }]
        else []
    | _, _ => []

/-- FlagAnalyzer.analyze: the empty sequence short-circuits, otherwise
all seven detection rules run and their flags are concatenated in rule
order. -/
def analyze (gt : String → Int) (snapshots : List Snapshot) : List Flag :=
  if snapshots.length = 0 then []
  else
    detectLargePaste snapshots ++
    detectFullyFormedCode snapshots ++
    detectLongGapThenCompletion gt snapshots ++
    detectStyleInconsistency snapshots ++
    detectNoDebugging snapshots ++
    detectUnusualSpeed gt snapshots ++
    detectRapidCompletion gt snapshots

/-- The per-edit update that handleDocumentChange applies to the pending
entry of a file: keep the higher-priority change type and add the
cumulative character counters (spec-side restatement of the accumulation
branch, used to describe the fold over a tick's edits). -/
def accumulatePending (pasteThreshold : Nat) (q : PendingChange) (e : DocEvent) :
    PendingChange :=
  { changeType :=
      if CHANGE_TYPE_PRIORITY (detect pasteThreshold e.contentChanges) >
          CHANGE_TYPE_PRIORITY q.changeType
      then detect pasteThreshold e.contentChanges else q.changeType
    charsAdded := q.charsAdded + eventCharsAdded e
    charsRemoved := q.charsRemoved + eventCharsRemoved e }

/-! ## Concrete fixtures

Closed instances of the collaborators and data used to evaluate the
model at explicit inputs. -/

/-- A concrete stand-in digest: appends a marker, so distinct inputs
stay distinguishable enough for the fixtures. -/
def hashDemo : String → String := fun s => String.append s "#"

/-- A stored row whose chain_hash does not match the recomputed digest
under hashDemo. -/
def rowBad : ChainRow :=
  { chain_hash := "bad", content_hash := "c", timestamp := "t" }

/-- A Date-parse collaborator mapping every timestamp to 0 ms. -/
def gtZero : String → Int := fun _ => 0

/-- A Date-parse collaborator placing timestamp T1 one minute after
every other timestamp. -/
def gtDemo : String → Int := fun s => if s = "T1" then 60000 else 0

/-- A baseline snapshot for fixtures. -/
def snapBase : Snapshot :=
  { id := "s1"
    timestamp := "T0"
    filename := "a.py"
    content_hash := "h1"
    diff := ""
    lines_added := 0
    lines_removed := 0
    total_lines := 1
    change_type := ChangeType.typing
    change_size := 0
    chain_hash := "c1"
    session_id := "sess" }

/-- The C2 scenario snapshot: a paste adding 42 lines. -/
def snap42 : Snapshot :=
  { snapBase with change_type := ChangeType.paste, lines_added := 42, change_size := 300 }

/-- A lone snapshot adding 250 lines. -/
def snap250 : Snapshot :=
  { snapBase with lines_added := 250 }

/-- First of two snapshots one minute apart, adding 150 lines. -/
def snapA : Snapshot :=
  { snapBase with id := "s1", timestamp := "T0", lines_added := 150 }

/-- Second of two snapshots one minute apart, adding 100 lines. -/
def snapB : Snapshot :=
  { snapBase with id := "s2", timestamp := "T1", lines_added := 100 }

/-- The large-paste flag analyze produces for the snap42 fixture. -/
def flagLP42 : Flag :=
  { category := FlagCategory.large_paste
    severity := FlagSeverity.medium
    timestamp := "T0"
    filename := "a.py"
    snapshotIds := ["s1"] }

/-- A persistence collaborator whose append always throws. -/
def saveFail : Snapshot → Except String Unit := fun _ => Except.error "disk full"

/-- An engine context over one open document main.ts whose live content
differs from the recorded baseline, with a failing persistence append. -/
def ctxFail : EngineCtx :=
  { H := fun s => String.append "h:" s
    createPatch := fun _ _ curr => String.append "+" curr
    relPath := fun p => p
    excluded := fun _ => false
    docs := [("main.ts", "new content")]
    save := saveFail
    now := fun _ => "2024-01-01T00:00:00.000Z"
    uuid := fun n => String.append "id" (toString n)
    pasteThreshold := DEFAULT_PASTE_CHAR_THRESHOLD }

/-- The ctxFail context with the live content equal to the recorded
baseline of stRun (the empty string). -/
def ctxSame : EngineCtx := { ctxFail with docs := [("main.ts", "")] }

/-- A pending aggregated change for main.ts. -/
def pendingDemo : PendingChange :=
  { changeType := ChangeType.typing, charsAdded := 11, charsRemoved := 0 }

/-- A running engine with one pending change for main.ts. -/
def stRun : EngineState :=
  { isRunning := true
    isPaused := false
    fileContents := [("main.ts", "")]
    pendingChanges := [("main.ts", pendingDemo)]
    lastChainHash := ""
    snapshotCount := 0
    sessionId := "sess" }

/-- stRun while paused. -/
def stPaused : EngineState := { stRun with isPaused := true }

/-- stRun with nothing pending. -/
def stEmpty : EngineState := { stRun with pendingChanges := [] }

/-- A single-range TextChange inserting exactly 50 characters. -/
def paste50 : TextChange :=
  { text := String.mk (List.replicate 50 'a'), rangeLength := 0 }

/-- A single-range TextChange inserting exactly 49 characters. -/
def typing49 : TextChange :=
  { text := String.mk (List.replicate 49 'a'), rangeLength := 0 }

/-- A small typing event on main.ts. -/
def evTyping1 : DocEvent :=
  { scheme := "file", fsPath := "main.ts"
    contentChanges := [{ text := "a", rangeLength := 0 }] }

/-- A paste event on main.ts (60 characters in one range). -/
def evPaste : DocEvent :=
  { scheme := "file", fsPath := "main.ts"
    contentChanges := [{ text := String.mk (List.replicate 60 'x'), rangeLength := 0 }] }

/-- Another small typing event on main.ts. -/
def evTyping2 : DocEvent :=
  { scheme := "file", fsPath := "main.ts"
    contentChanges := [{ text := "bc", rangeLength := 1 }] }

/-- A single-character pure insert change at line 3 character 10. -/
def rcA : ReplayChange :=
  { rangeStart := { line := 3, character := 10 }
    rangeEnd := { line := 3, character := 10 }
    text := "a", rangeLength := 0 }

/-- A contiguous single-character pure insert change right after rcA. -/
def rcB : ReplayChange :=
  { rangeStart := { line := 3, character := 11 }
    rangeEnd := { line := 3, character := 12 }
    text := "b", rangeLength := 0 }

/-- A buffered single-character pure insert event at line 3. -/
def re1 : ReplayEvent :=
  { timestamp := 1000, filename := "main.ts", changes := [rcA] }

/-- A contiguous single-character pure insert event 100 ms after re1. -/
def re2 : ReplayEvent :=
  { timestamp := 1100, filename := "main.ts", changes := [rcB] }

/-- The same insert as re2 but 600 ms after re1. -/
def re2Late : ReplayEvent := { re2 with timestamp := 1600 }

/-! ## Proofs -/

theorem trySave_eq (save : Snapshot → Except String Unit) (s : Snapshot)
    {α : Type} (k : α) : trySave save s k = k := by
  unfold trySave
  cases save s <;> rfl

theorem chainLoop_iff (H : String → String) (seed : String) (rows : List ChainRow) :
    chainLoop H seed rows = true ↔
      ∀ i, ∀ h : i < rows.length,
        (rows.get ⟨i, h⟩).chain_hash =
          H ((match i with
              | 0 => seed
              | j + 1 => ((rows.get? j).map ChainRow.chain_hash).getD "") ++
            (rows.get ⟨i, h⟩).content_hash ++ (rows.get ⟨i, h⟩).timestamp) := by
  induction rows generalizing seed with
  | nil =>
      simp [chainLoop]
  | cons r rest ih =>
      by_cases hmatch : H (seed ++ r.content_hash ++ r.timestamp) = r.chain_hash
      · have hred : chainLoop H seed (r :: rest) = chainLoop H r.chain_hash rest := by
          simp [chainLoop, hmatch]
        rw [hred, ih r.chain_hash]
        constructor
        · intro hrest i h
          match i with
          | 0 => simpa using hmatch.symm
          | 1 =>
              have h1 : 0 < rest.length := by simpa using h
              have := hrest 0 h1
              simpa using this
          | j + 2 =>
              have h2 : j + 1 < rest.length := by
                simp only [List.length_cons] at h; omega
              have := hrest (j + 1) h2
              simpa using this
        · intro hall i h
          match i with
          | 0 =>
              have := hall 1 (by simpa using h)
              simpa using this
          | j + 1 =>
              have := hall (j + 2) (by simp only [List.length_cons] at h ⊢; omega)
              simpa using this
      · have hred : chainLoop H seed (r :: rest) = false := by
          simp [chainLoop, hmatch]
        rw [hred]
        constructor
        · intro hfalse; exact absurd hfalse (by simp)
        · intro hall
          have := hall 0 (by simp)
          exact absurd (this.symm) (by simpa using hmatch)

theorem verifyHashChain_iff (H : String → String) (stored : List ChainRow) :
    verifyHashChain H stored = true ↔ chainSpec H (sortByTimestamp stored) := by
  unfold verifyHashChain chainSpec prevChainHash
  rw [chainLoop_iff]
  constructor
  · intro hall i h
    have := hall i h
    match i with
    | 0 => simpa using this
    | j + 1 => simpa using this
  · intro hall i h
    have := hall i h
    match i with
    | 0 => simpa using this
    | j + 1 => simpa using this


/-- C1: for every sequence of snapshots stored by the Chain Store,
verifyHashChain returns true if and only if, taking the stored snapshots
in ascending timestamp order and starting from the empty-string seed,
every stored chain_hash equals the digest of (previous chain_hash ++
content_hash ++ timestamp); a mismatch at any single position makes it
return false. -/
theorem C1_verifyHashChain_correct (H : String → String) (stored : List ChainRow) :
    (verifyHashChain H stored = true ↔ chainSpec H (sortByTimestamp stored)) ∧
    (∀ i, ∀ h : i < (sortByTimestamp stored).length,
      ((sortByTimestamp stored).get ⟨i, h⟩).chain_hash ≠
        H (prevChainHash (sortByTimestamp stored) i ++
           ((sortByTimestamp stored).get ⟨i, h⟩).content_hash ++
           ((sortByTimestamp stored).get ⟨i, h⟩).timestamp) →
      verifyHashChain H stored = false) := by
  refine ⟨verifyHashChain_iff H stored, ?_⟩
  intro i h hmis
  by_contra hne
  have htrue : verifyHashChain H stored = true := by
    revert hne
    cases verifyHashChain H stored <;> simp
  exact hmis ((verifyHashChain_iff H stored).1 htrue i h)

/-- Witness for C1: a concrete store whose single row's chain_hash is
not the digest of seed ++ content_hash ++ timestamp is reported broken. -/
theorem C1_verifyHashChain_correct_witness :
    verifyHashChain hashDemo [rowBad] = false :=
  (C1_verifyHashChain_correct hashDemo [rowBad]).2 0 (by decide) (by decide)

/-- C5: detect returns the first matching rule of: zero ranges gives
typing; more than one range gives refactor regardless of size; one range
with inserted length at or above the threshold gives paste; one range
with removed length at least 30 and nothing inserted gives delete;
otherwise typing.  At the default threshold a 50-character single-range
insert is paste and a 49-character one is typing. -/
theorem C5_detect_first_matching_rule :
    (∀ (pasteThreshold : Nat) (changes : List TextChange),
      (detect pasteThreshold changes = ChangeType.refactor ↔ 1 < changes.length) ∧
      (detect pasteThreshold changes = ChangeType.paste ↔
        ∃ c, changes = [c] ∧ pasteThreshold ≤ c.text.length) ∧
      (detect pasteThreshold changes = ChangeType.delete ↔
        ∃ c, changes = [c] ∧ c.text.length < pasteThreshold ∧
          DELETE_CHAR_THRESHOLD ≤ c.rangeLength ∧ c.text.length = 0) ∧
      (detect pasteThreshold changes = ChangeType.typing ↔
        (changes = [] ∨ ∃ c, changes = [c] ∧ c.text.length < pasteThreshold ∧
          ¬ (DELETE_CHAR_THRESHOLD ≤ c.rangeLength ∧ c.text.length = 0)))) ∧
    detect DEFAULT_PASTE_CHAR_THRESHOLD [paste50] = ChangeType.paste ∧
    detect DEFAULT_PASTE_CHAR_THRESHOLD [typing49] = ChangeType.typing := by
  refine ⟨?_, by decide, by decide⟩
  intro t cs
  match cs with
  | [] => simp [detect]
  | a :: b :: rest => simp [detect]
  | [c] =>
      rcases Nat.lt_or_ge c.text.length t with hlt | hge
      · by_cases hdel : DELETE_CHAR_THRESHOLD ≤ c.rangeLength ∧ c.text.length = 0
        · have hd : detect t [c] = ChangeType.delete := by
            have ht0 : ¬ t = 0 := by omega
            simp [detect, Nat.not_le.2 hlt, hdel, ht0]
          rw [hd]
          refine ⟨by simp, ?_, ?_, ?_⟩
          · constructor
            · intro h; exact absurd h (by decide)
            · rintro ⟨c2, hc, hle⟩
              injection hc with h1 h2
              subst h1
              exact absurd hle (Nat.not_le.2 hlt)
          · constructor
            · intro _; exact ⟨c, rfl, hlt, hdel.1, hdel.2⟩
            · intro _; rfl
          · constructor
            · intro h; exact absurd h (by decide)
            · rintro (hnil | ⟨c2, hc, _, hnd⟩)
              · exact absurd hnil (by simp)
              · injection hc with h1 h2
                subst h1
                exact absurd hdel hnd
        · have hd : detect t [c] = ChangeType.typing := by
            simp [detect, Nat.not_le.2 hlt, hdel]
          rw [hd]
          refine ⟨by simp, ?_, ?_, ?_⟩
          · constructor
            · intro h; exact absurd h (by decide)
            · rintro ⟨c2, hc, hle⟩
              injection hc with h1 h2
              subst h1
              exact absurd hle (Nat.not_le.2 hlt)
          · constructor
            · intro h; exact absurd h (by decide)
            · rintro ⟨c2, hc, _, h30, h0⟩
              injection hc with h1 h2
              subst h1
              exact absurd ⟨h30, h0⟩ hdel
          · constructor
            · intro _; exact Or.inr ⟨c, rfl, hlt, hdel⟩
            · intro _; rfl
      · have hd : detect t [c] = ChangeType.paste := by
          simp [detect, hge]
        rw [hd]
        refine ⟨by simp, ?_, ?_, ?_⟩
        · constructor
          · intro _; exact ⟨c, rfl, hge⟩
          · intro _; rfl
        · constructor
          · intro h; exact absurd h (by decide)
          · rintro ⟨c2, hc, hlt2, _, _⟩
            injection hc with h1 h2
            subst h1
            exact absurd hge (Nat.not_le.2 hlt2)
        · constructor
          · intro h; exact absurd h (by decide)
          · rintro (hnil | ⟨c2, hc, hlt2, _⟩)
            · exact absurd hnil (by simp)
            · injection hc with h1 h2
              subst h1
              exact absurd hge (Nat.not_le.2 hlt2)

/-- C3 counterexample: with a persistence append that throws, the flush
emission for a changed file still completes normally — the error does
not propagate to the caller as the claim states. -/
theorem C3_counterexample_save_error_swallowed :
    (emitSnapshot ctxFail stRun "main.ts" pendingDemo).isOk = true := by
  decide

/-- C3 amended: a saveSnapshot failure during emission is caught and
logged inside emitSnapshot; emission always completes without an error,
and the caller-visible outcome is identical to the one with a succeeding
append. -/
theorem C3_amended_save_error_never_propagates (ctx : EngineCtx)
    (st : EngineState) (filePath : String) (pending : PendingChange) :
    (emitSnapshot ctx st filePath pending).isOk = true ∧
    emitSnapshot ctx st filePath pending =
      emitSnapshot { ctx with save := fun _ => Except.ok () } st filePath pending := by
  rcases hdoc : lookupA ctx.docs filePath with _ | currentContent
  · constructor
    · simp only [emitSnapshot, hdoc]
      rfl
    · simp only [emitSnapshot, hdoc]
  · by_cases hsame : currentContent = (lookupA st.fileContents filePath).getD ""
    · constructor
      · simp only [emitSnapshot, hdoc, if_pos hsame]
        rfl
      · simp only [emitSnapshot, hdoc, if_pos hsame]
    · constructor
      · simp only [emitSnapshot, hdoc, if_neg hsame, trySave_eq]
        rfl
      · simp only [emitSnapshot, hdoc, if_neg hsame, trySave_eq]

/-- C4: the code discards pending aggregated changes when stop() is
called while paused: stop runs processSnapshots before clearing
isPaused, and processSnapshots returns immediately when paused, so the
pending change for main.ts (whose live content differs from the
baseline) is cleared without any emission — while the identical state
with isPaused false flushes exactly one snapshot. -/
theorem C4_stop_while_paused_discards_pending :
    stop ctxFail stPaused =
      ({ stPaused with
          isRunning := false
          isPaused := false
          fileContents := []
          pendingChanges := [] }, ([] : List Snapshot)) ∧
    (stop ctxFail stRun).2.length = 1 := by
  constructor
  · decide
  · decide

/-- C9: at a flush tick, a tracked file whose live content equals the
recorded baseline produces no snapshot and leaves the whole engine
state — in particular the chain cursor and the recorded baseline —
unchanged. -/
theorem C9_identical_content_emits_nothing (ctx : EngineCtx)
    (st : EngineState) (filePath : String) (pending : PendingChange)
    (content : String)
    (hdoc : lookupA ctx.docs filePath = some content)
    (hbase : (lookupA st.fileContents filePath).getD "" = content) :
    emitSnapshot ctx st filePath pending = Except.ok (st, none) := by
  unfold emitSnapshot
  rw [hdoc]
  simp [hbase]

/-- Witness for C9: the fixture whose live main.ts content equals the
recorded baseline emits nothing and keeps the state. -/
theorem C9_identical_content_emits_nothing_witness :
    emitSnapshot ctxSame stRun "main.ts" pendingDemo = Except.ok (stRun, none) :=
  C9_identical_content_emits_nothing ctxSame stRun "main.ts" pendingDemo ""
    (by decide) (by decide)

/-- C8: two consecutively buffered replay events on the same file that
are single-range pure inserts on the same line, where the new insertion
begins exactly where the previous inserted text ends and inserts exactly
one character, merge into one buffered event with concatenated text and
the extended end position when their timestamps are within 500 ms, and
are appended separately when further apart. -/
theorem C8_replay_coalescing (b : List ReplayEvent) (e1 e2 : ReplayEvent)
    (lc nc : ReplayChange)
    (h1 : e1.changes = [lc]) (h2 : e2.changes = [nc])
    (hfile : e1.filename = e2.filename)
    (hl0 : lc.rangeLength = 0) (hn0 : nc.rangeLength = 0)
    (hline : lc.rangeStart.line = nc.rangeStart.line)
    (hchar : nc.rangeStart.character = lc.rangeStart.character + lc.text.length)
    (hone : nc.text.length = 1) :
    (e2.timestamp - e1.timestamp ≤ COALESCE_WINDOW_MS →
      bufferEvent (b ++ [e1]) e2 =
        b ++ [{ e1 with
                changes := [{ lc with
                  text := lc.text ++ nc.text
                  rangeEnd := nc.rangeEnd }] }]) ∧
    (e2.timestamp - e1.timestamp > COALESCE_WINDOW_MS →
      bufferEvent (b ++ [e1]) e2 = (b ++ [e1]) ++ [e2]) := by
  constructor
  · intro hwin
    have hno : ¬ (e2.timestamp - e1.timestamp > COALESCE_WINDOW_MS) := not_lt.2 hwin
    simp only [bufferEvent, tryCoalesce, List.getLast?_concat, h1, h2, hfile, hl0,
      hn0, hline, hchar, hone, hno, List.dropLast_concat]
    simp
  · intro hfar
    simp only [bufferEvent, tryCoalesce, List.getLast?_concat, hfar]
    simp

/-- Witness for C8: the 100 ms fixture pair merges into one event with
text ab and extended end position; the 600 ms pair stays two events. -/
theorem C8_replay_coalescing_witness :
    bufferEvent [re1] re2 =
      [{ re1 with
          changes := [{ rcA with
            text := rcA.text ++ rcB.text
            rangeEnd := rcB.rangeEnd }] }] ∧
    bufferEvent [re1] re2Late = [re1, re2Late] := by
  constructor
  · exact (C8_replay_coalescing [] re1 re2 rcA rcB rfl rfl rfl rfl rfl rfl
      (by decide) (by decide)).1 (by decide)
  · exact (C8_replay_coalescing [] re1 re2Late rcA rcB rfl rfl rfl rfl rfl rfl
      (by decide) (by decide)).2 (by decide)

theorem detectLargePaste_flags (snaps : List Snapshot) :
    ∀ fl ∈ detectLargePaste snaps, fl.category = FlagCategory.large_paste ∧
      fl.snapshotIds ≠ [] ∧ ∀ i ∈ fl.snapshotIds, i ∈ snaps.map Snapshot.id := by
  intro fl hfl
  rcases List.mem_filterMap.1 hfl with ⟨s, hs, heq⟩
  by_cases hc : s.lines_added ≥ LARGE_PASTE_THRESHOLD ∧ s.change_type = ChangeType.paste
  · rw [if_pos hc] at heq
    cases heq
    refine ⟨rfl, by simp, ?_⟩
    intro i hi
    rw [List.mem_singleton] at hi
    subst hi
    exact List.mem_map_of_mem Snapshot.id hs
  · rw [if_neg hc] at heq
    cases heq

theorem detectFullyFormedCode_flags (snaps : List Snapshot) :
    ∀ l : List Snapshot, (∀ s ∈ l, s ∈ snaps) →
      ∀ fl ∈ detectFullyFormedCode l, fl.category = FlagCategory.fully_formed_code ∧
        fl.snapshotIds ≠ [] ∧ ∀ i ∈ fl.snapshotIds, i ∈ snaps.map Snapshot.id := by
  intro l
  induction l with
  | nil => intro _ fl hfl; simp [detectFullyFormedCode] at hfl
  | cons s rest ih =>
      intro hsub fl hfl
      simp only [detectFullyFormedCode] at hfl
      rcases List.mem_append.1 hfl with h | h
      · split at h
        · rw [List.mem_singleton] at h
          subst h
          refine ⟨rfl, by simp, ?_⟩
          intro i hi
          rw [List.mem_singleton] at hi
          subst hi
          exact List.mem_map_of_mem Snapshot.id (hsub s (List.mem_cons_self s rest))
        · exact absurd h (List.not_mem_nil fl)
      · exact ih (fun x hx => hsub x (List.mem_cons_of_mem s hx)) fl h

theorem longGapLoop_flags (gt : String → Int) (snaps : List Snapshot) :
    ∀ (l : List Snapshot) (prev : Snapshot), (∀ s ∈ l, s ∈ snaps) →
      ∀ fl ∈ longGapLoop gt prev l, fl.category = FlagCategory.long_gap ∧
        fl.snapshotIds ≠ [] ∧ ∀ i ∈ fl.snapshotIds, i ∈ snaps.map Snapshot.id := by
  intro l
  induction l with
  | nil => intro prev _ fl hfl; simp [longGapLoop] at hfl
  | cons curr rest ih =>
      intro prev hsub fl hfl
      simp only [longGapLoop] at hfl
      rcases List.mem_append.1 hfl with h | h
      · have h0 : (0 : Int) ≤ POST_GAP_WINDOW_MS := by decide
        split at h
        · exact absurd h (List.not_mem_nil fl)
        · split at h
          · rw [List.mem_singleton] at h
            subst h
            refine ⟨rfl, ?_, ?_⟩
            · simp [List.takeWhile_cons, h0]
            · intro i hi
              rcases List.mem_map.1 hi with ⟨s, hsw, rfl⟩
              have hsl : s ∈ curr :: rest :=
                (List.takeWhile_sublist _).subset hsw
              exact List.mem_map_of_mem Snapshot.id (hsub s hsl)
          · exact absurd h (List.not_mem_nil fl)
      · exact ih curr (fun x hx => hsub x (List.mem_cons_of_mem curr hx)) fl h

theorem detectLongGapThenCompletion_flags (gt : String → Int) (snaps : List Snapshot) :
    ∀ fl ∈ detectLongGapThenCompletion gt snaps, fl.category = FlagCategory.long_gap ∧
      fl.snapshotIds ≠ [] ∧ ∀ i ∈ fl.snapshotIds, i ∈ snaps.map Snapshot.id := by
  intro fl hfl
  cases snaps with
  | nil => simp [detectLongGapThenCompletion] at hfl
  | cons first rest =>
      exact longGapLoop_flags gt (first :: rest) rest first
        (fun x hx => List.mem_cons_of_mem first hx) fl hfl

theorem groupByFile_snd (snaps : List Snapshot) (grp : String × List Snapshot)
    (hg : grp ∈ groupByFile snaps) :
    grp.2 = snaps.filter (fun s => decide (s.filename = grp.1)) := by
  rcases List.mem_map.1 hg with ⟨fn, _, rfl⟩
  rfl

theorem detectStyleInconsistency_flags (snaps : List Snapshot) :
    ∀ fl ∈ detectStyleInconsistency snaps, fl.category = FlagCategory.style_inconsistency ∧
      fl.snapshotIds ≠ [] ∧ ∀ i ∈ fl.snapshotIds, i ∈ snaps.map Snapshot.id := by
  intro fl hfl
  rcases List.mem_flatMap.1 hfl with ⟨grp, hg, h⟩
  have hsnd := groupByFile_snd snaps grp hg
  simp only at h
  by_cases hlen : grp.2.length < 2
  · rw [if_pos hlen] at h
    exact absurd h (List.not_mem_nil fl)
  · rw [if_neg hlen] at h
    split at h <;> try exact absurd h (List.not_mem_nil fl)
    split at h <;> try exact absurd h (List.not_mem_nil fl)
    rw [List.mem_singleton] at h
    subst h
    refine ⟨rfl, ?_, ?_⟩
    · rw [Ne, List.map_eq_nil_iff]
      intro hnil
      rw [hnil] at hlen
      simp at hlen
    · intro i hi
      rcases List.mem_map.1 hi with ⟨s, hsg, rfl⟩
      rw [hsnd] at hsg
      exact List.mem_map_of_mem Snapshot.id ((List.filter_sublist snaps).subset hsg)

theorem detectNoDebugging_flags (snaps : List Snapshot) :
    ∀ fl ∈ detectNoDebugging snaps, fl.category = FlagCategory.no_debugging ∧
      fl.snapshotIds ≠ [] ∧ ∀ i ∈ fl.snapshotIds, i ∈ snaps.map Snapshot.id := by
  intro fl hfl
  rcases List.mem_flatMap.1 hfl with ⟨grp, hg, h⟩
  have hsnd := groupByFile_snd snaps grp hg
  simp only at h
  split at h
  · exact absurd h (List.not_mem_nil fl)
  · split at h
    · rw [List.mem_singleton] at h
      subst h
      rename_i first rest' heq _
      refine ⟨rfl, ?_, ?_⟩
      · rw [Ne, List.map_eq_nil_iff]
        intro hnil
        rw [hnil] at heq
        cases heq
      · intro i hi
        rcases List.mem_map.1 hi with ⟨s, hsg, rfl⟩
        rw [hsnd] at hsg
        exact List.mem_map_of_mem Snapshot.id ((List.filter_sublist snaps).subset hsg)
    · exact absurd h (List.not_mem_nil fl)

theorem unusualSpeedLoop_flags (gt : String → Int) (snaps : List Snapshot) :
    ∀ (l : List Snapshot) (flagged : List String), (∀ s ∈ l, s ∈ snaps) →
      ∀ fl ∈ unusualSpeedLoop gt l flagged, fl.category = FlagCategory.unusual_typing_speed ∧
        fl.snapshotIds ≠ [] ∧ ∀ i ∈ fl.snapshotIds, i ∈ snaps.map Snapshot.id := by
  intro l
  induction l with
  | nil => intro flagged _ fl hfl; simp [unusualSpeedLoop] at hfl
  | cons s rest ih =>
      intro flagged hsub fl hfl
      have hsubrest : ∀ x ∈ rest, x ∈ snaps :=
        fun x hx => hsub x (List.mem_cons_of_mem s hx)
      have h0 : (0 : Int) ≤ SPEED_WINDOW_MS := by decide
      simp only [unusualSpeedLoop] at hfl
      split at hfl
      · split at hfl
        · exact ih flagged hsubrest fl hfl
        · rcases List.mem_cons.1 hfl with h | h
          · subst h
            refine ⟨rfl, ?_, ?_⟩
            · simp [List.takeWhile_cons, h0]
            · intro i hi
              rcases List.mem_map.1 hi with ⟨t, htw, rfl⟩
              have htl : t ∈ s :: rest := (List.takeWhile_sublist _).subset htw
              exact List.mem_map_of_mem Snapshot.id (hsub t htl)
          · exact ih (s.id :: flagged) hsubrest fl h
      · exact ih flagged hsubrest fl hfl

theorem detectRapidCompletion_flags (gt : String → Int) (snaps : List Snapshot) :
    ∀ fl ∈ detectRapidCompletion gt snaps, fl.category = FlagCategory.rapid_completion ∧
      fl.snapshotIds ≠ [] ∧ ∀ i ∈ fl.snapshotIds, i ∈ snaps.map Snapshot.id := by
  intro fl hfl
  simp only [detectRapidCompletion] at hfl
  by_cases hlen : snaps.length < 2
  · rw [if_pos hlen] at hfl
    exact absurd hfl (List.not_mem_nil fl)
  · rw [if_neg hlen] at hfl
    split at hfl <;> try exact absurd hfl (List.not_mem_nil fl)
    split at hfl <;> try exact absurd hfl (List.not_mem_nil fl)
    rw [List.mem_singleton] at hfl
    subst hfl
    refine ⟨rfl, ?_, fun i hi => hi⟩
    rw [Ne, List.map_eq_nil_iff]
    intro hnil
    rw [hnil] at hlen
    simp at hlen

/-- C10: every flag returned by analyze has a non-empty snapshotIds list
and every id in it is the id of some snapshot of the input sequence. -/
theorem C10_flags_reference_input_snapshots (gt : String → Int)
    (snaps : List Snapshot) (fl : Flag) (hfl : fl ∈ analyze gt snaps) :
    fl.snapshotIds ≠ [] ∧ ∀ i ∈ fl.snapshotIds, i ∈ snaps.map Snapshot.id := by
  unfold analyze at hfl
  split at hfl
  · exact absurd hfl (List.not_mem_nil fl)
  · simp only [List.mem_append, or_assoc] at hfl
    rcases hfl with h | h | h | h | h | h | h
    · exact (detectLargePaste_flags snaps fl h).2
    · exact (detectFullyFormedCode_flags snaps snaps (fun x hx => hx) fl h).2
    · exact (detectLongGapThenCompletion_flags gt snaps fl h).2
    · exact (detectStyleInconsistency_flags snaps fl h).2
    · exact (detectNoDebugging_flags snaps fl h).2
    · exact (unusualSpeedLoop_flags gt snaps snaps [] (fun x hx => hx) fl h).2
    · exact (detectRapidCompletion_flags gt snaps fl h).2

/-- Witness for C10: the large-paste flag produced for the snap42
fixture has a non-empty id list drawn from the input snapshot. -/
theorem C10_flags_reference_input_snapshots_witness :
    flagLP42.snapshotIds ≠ [] ∧
      ∀ i ∈ flagLP42.snapshotIds, i ∈ [snap42].map Snapshot.id :=
  C10_flags_reference_input_snapshots gtZero [snap42] flagLP42 (by decide)

/-- C2 counterexample: for the claimed scenario — one file, a single
snapshot with change_type paste and lines_added 42 — analyze produces
only the large-paste flag; no fully-formed-code flag exists, because
that rule requires lines_added of at least 50. -/
theorem C2_counterexample_no_fully_formed_flag :
    analyze gtZero [snap42] = [flagLP42] ∧
    (analyze gtZero [snap42]).filter
      (fun fl => decide (fl.category = FlagCategory.fully_formed_code)) = [] := by
  decide

/-- C2 amended: a sequence consisting of one snapshot with change_type
paste and lines_added 42 yields exactly one large-paste flag of medium
severity keyed to that snapshot, and no fully-formed-code flag (the
fully-formed rule requires lines_added of at least 50, and 42 is below
that threshold). -/
theorem C2_amended_large_paste_only (gt : String → Int) (s : Snapshot)
    (hlines : s.lines_added = 42) (htype : s.change_type = ChangeType.paste) :
    (analyze gt [s]).filter
        (fun fl => decide (fl.category = FlagCategory.large_paste)) =
      [{ category := FlagCategory.large_paste
         severity := FlagSeverity.medium
         timestamp := s.timestamp
         filename := s.filename
         snapshotIds := [s.id] }] ∧
    (analyze gt [s]).filter
      (fun fl => decide (fl.category = FlagCategory.fully_formed_code)) = [] := by
  have h1 : detectLargePaste [s] =
      [{ category := FlagCategory.large_paste
         severity := FlagSeverity.medium
         timestamp := s.timestamp
         filename := s.filename
         snapshotIds := [s.id] }] := by
    simp [detectLargePaste, hlines, htype, LARGE_PASTE_THRESHOLD]
  have h2 : detectFullyFormedCode [s] = [] := by
    simp [detectFullyFormedCode, hlines, FULLY_FORMED_LINE_THRESHOLD]
  have h3 : detectLongGapThenCompletion gt [s] = [] := by
    simp [detectLongGapThenCompletion, longGapLoop]
  have h4 : detectStyleInconsistency [s] = [] := by
    simp [detectStyleInconsistency, groupByFile, fileNames]
  have h5 : detectNoDebugging [s] = [] := by
    simp [detectNoDebugging, groupByFile, fileNames, sumLinesAdded, sumLinesRemoved,
      hlines, NO_DEBUGGING_LINE_THRESHOLD]
  have h6 : detectUnusualSpeed gt [s] = [] := by
    have h0 : (0 : Int) ≤ SPEED_WINDOW_MS := by decide
    simp [detectUnusualSpeed, unusualSpeedLoop, List.takeWhile_cons, h0]
  have h7 : detectRapidCompletion gt [s] = [] := by
    simp [detectRapidCompletion]
  refine ⟨?_, ?_⟩ <;> simp [analyze, h1, h2, h3, h4, h5, h6, h7]

/-- Witness for C2 (amended): the snap42 fixture evaluates to exactly
the large-paste flag and no fully-formed-code flag. -/
theorem C2_amended_large_paste_only_witness :
    (analyze gtZero [snap42]).filter
        (fun fl => decide (fl.category = FlagCategory.large_paste)) = [flagLP42] ∧
    (analyze gtZero [snap42]).filter
      (fun fl => decide (fl.category = FlagCategory.fully_formed_code)) = [] :=
  C2_amended_large_paste_only gtZero snap42 rfl rfl

/-- C7 counterexample: a sequence containing a single snapshot whose
lines_added already reaches 200 (so total elapsed time 0 and total
lines at the thresholds) produces no rapid_completion flag, contrary to
the claim's single-snapshot case: detectRapidCompletion abstains below
two snapshots. -/
theorem C7_counterexample_single_snapshot_no_flag :
    RAPID_COMPLETION_LINE_THRESHOLD ≤ sumLinesAdded [snap250] ∧
    (analyze gtZero [snap250]).filter
      (fun fl => decide (fl.category = FlagCategory.rapid_completion)) = [] := by
  decide

/-- C7 amended: for every snapshot sequence with at least two snapshots
whose elapsed time from first to last is at most 1 hour and whose total
lines_added is at least 200, analyze emits exactly one rapid_completion
flag, of low severity, whose snapshotIds reference all snapshots of the
sequence. -/
theorem C7_amended_rapid_completion (gt : String → Int)
    (snaps : List Snapshot) (first last : Snapshot)
    (hhead : snaps.head? = some first)
    (hlast : snaps.getLast? = some last)
    (hlen : 2 ≤ snaps.length)
    (helapsed : gt last.timestamp - gt first.timestamp ≤ RAPID_COMPLETION_TIME_MS)
    (hlines : RAPID_COMPLETION_LINE_THRESHOLD ≤ sumLinesAdded snaps) :
    (analyze gt snaps).filter
        (fun fl => decide (fl.category = FlagCategory.rapid_completion)) =
      [{ category := FlagCategory.rapid_completion
         severity := FlagSeverity.low
         timestamp := first.timestamp
         filename := first.filename
         snapshotIds := snaps.map Snapshot.id }] := by
  have hrc : detectRapidCompletion gt snaps =
      [{ category := FlagCategory.rapid_completion
         severity := FlagSeverity.low
         timestamp := first.timestamp
         filename := first.filename
         snapshotIds := snaps.map Snapshot.id }] := by
    have hnlt : ¬ (snaps.length < 2) := by omega
    simp only [detectRapidCompletion, if_neg hnlt, hhead, hlast]
    rw [if_pos ⟨helapsed, hlines⟩]
  have hp : ∀ (cat : FlagCategory), cat ≠ FlagCategory.rapid_completion →
      ∀ fl : Flag, fl.category = cat →
        (decide (fl.category = FlagCategory.rapid_completion)) = false := by
    intro cat hcat fl hfl
    rw [decide_eq_false_iff_not]
    rw [hfl]
    exact hcat
  have hne0 : ¬ snaps.length = 0 := by omega
  unfold analyze
  rw [if_neg hne0]
  simp only [List.filter_append]
  rw [List.filter_eq_nil_iff.2 (fun fl hfl =>
        by rw [hp FlagCategory.large_paste (by decide) fl (detectLargePaste_flags snaps fl hfl).1]; simp),
      List.filter_eq_nil_iff.2 (fun fl hfl =>
        by rw [hp FlagCategory.fully_formed_code (by decide) fl
            ((detectFullyFormedCode_flags snaps snaps (fun x hx => hx) fl hfl).1)]; simp),
      List.filter_eq_nil_iff.2 (fun fl hfl =>
        by rw [hp FlagCategory.long_gap (by decide) fl (detectLongGapThenCompletion_flags gt snaps fl hfl).1]; simp),
      List.filter_eq_nil_iff.2 (fun fl hfl =>
        by rw [hp FlagCategory.style_inconsistency (by decide) fl (detectStyleInconsistency_flags snaps fl hfl).1]; simp),
      List.filter_eq_nil_iff.2 (fun fl hfl =>
        by rw [hp FlagCategory.no_debugging (by decide) fl (detectNoDebugging_flags snaps fl hfl).1]; simp),
      List.filter_eq_nil_iff.2 (fun fl hfl =>
        by rw [hp FlagCategory.unusual_typing_speed (by decide) fl
            ((unusualSpeedLoop_flags gt snaps snaps [] (fun x hx => hx) fl hfl).1)]; simp),
      hrc]
  simp

/-- Witness for C7 (amended): two snapshots one minute apart totalling
250 added lines produce exactly the rapid-completion flag over both. -/
theorem C7_amended_rapid_completion_witness :
    (analyze gtDemo [snapA, snapB]).filter
        (fun fl => decide (fl.category = FlagCategory.rapid_completion)) =
      [{ category := FlagCategory.rapid_completion
         severity := FlagSeverity.low
         timestamp := snapA.timestamp
         filename := snapA.filename
         snapshotIds := [snapA, snapB].map Snapshot.id }] :=
  C7_amended_rapid_completion gtDemo [snapA, snapB] snapA snapB rfl (by decide)
    (by decide) (by decide) (by decide)

theorem lookupA_setA_self {α : Type} (m : List (String × α)) (k : String) (v : α) :
    lookupA (setA m k v) k = some v := by
  induction m with
  | nil => simp [setA, lookupA]
  | cons p rest ih =>
      obtain ⟨k1, w⟩ := p
      by_cases hk : k = k1
      · subst hk
        simp [setA, lookupA]
      · simp [setA, lookupA, hk, ih]

theorem handleDocumentChange_pending_none (ctx : EngineCtx) (st : EngineState)
    (ev : DocEvent)
    (hne : ev.contentChanges ≠ []) (hs : ev.scheme = "file")
    (hx : ctx.excluded (ctx.relPath ev.fsPath) = false)
    (hnone : lookupA st.pendingChanges ev.fsPath = none) :
    lookupA (handleDocumentChange ctx st ev).pendingChanges ev.fsPath =
      some { changeType := detect ctx.pasteThreshold ev.contentChanges
             charsAdded := eventCharsAdded ev
             charsRemoved := eventCharsRemoved ev } := by
  unfold handleDocumentChange
  rw [if_neg hne, if_neg (by simp [hs]), if_neg (by simp [hx])]
  simp [hnone, lookupA_setA_self]

theorem handleDocumentChange_pending_some (ctx : EngineCtx) (st : EngineState)
    (ev : DocEvent) (existing : PendingChange)
    (hne : ev.contentChanges ≠ []) (hs : ev.scheme = "file")
    (hx : ctx.excluded (ctx.relPath ev.fsPath) = false)
    (hsome : lookupA st.pendingChanges ev.fsPath = some existing) :
    lookupA (handleDocumentChange ctx st ev).pendingChanges ev.fsPath =
      some (accumulatePending ctx.pasteThreshold existing ev) := by
  unfold handleDocumentChange
  rw [if_neg hne, if_neg (by simp [hs]), if_neg (by simp [hx])]
  simp [hsome, lookupA_setA_self, accumulatePending]

theorem handleDocumentChange_foldl (ctx : EngineCtx) (f : String) :
    ∀ (events : List DocEvent) (st : EngineState) (p : PendingChange),
      (∀ e ∈ events, e.fsPath = f ∧ e.scheme = "file" ∧
        ctx.excluded (ctx.relPath e.fsPath) = false ∧ e.contentChanges ≠ []) →
      lookupA st.pendingChanges f = some p →
      lookupA ((events.foldl (handleDocumentChange ctx) st)).pendingChanges f =
        some (events.foldl (accumulatePending ctx.pasteThreshold) p) := by
  intro events
  induction events with
  | nil => intro st p _ hp; simpa using hp
  | cons e rest ih =>
      intro st p hall hp
      obtain ⟨hf, hs, hx, hne⟩ := hall e (List.mem_cons_self e rest)
      have hstep := handleDocumentChange_pending_some ctx st e p hne hs hx (by rw [hf]; exact hp)
      rw [hf] at hstep
      rw [List.foldl_cons, List.foldl_cons]
      exact ih (handleDocumentChange ctx st e) (accumulatePending ctx.pasteThreshold p e)
        (fun x hx2 => hall x (List.mem_cons_of_mem e hx2)) hstep

theorem foldl_accumulatePending_charsAdded (t : Nat) :
    ∀ (events : List DocEvent) (p : PendingChange),
      (events.foldl (accumulatePending t) p).charsAdded =
        p.charsAdded + (events.map eventCharsAdded).sum := by
  intro events
  induction events with
  | nil => intro p; simp
  | cons e rest ih =>
      intro p
      rw [List.foldl_cons, ih]
      simp [accumulatePending]
      omega

theorem foldl_accumulatePending_charsRemoved (t : Nat) :
    ∀ (events : List DocEvent) (p : PendingChange),
      (events.foldl (accumulatePending t) p).charsRemoved =
        p.charsRemoved + (events.map eventCharsRemoved).sum := by
  intro events
  induction events with
  | nil => intro p; simp
  | cons e rest ih =>
      intro p
      rw [List.foldl_cons, ih]
      simp [accumulatePending]
      omega

theorem foldl_accumulatePending_changeType (t : Nat) :
    ∀ (events : List DocEvent) (p : PendingChange),
      ((events.foldl (accumulatePending t) p).changeType = p.changeType ∨
        (events.foldl (accumulatePending t) p).changeType ∈
          events.map (fun e => detect t e.contentChanges)) ∧
      CHANGE_TYPE_PRIORITY p.changeType ≤
        CHANGE_TYPE_PRIORITY (events.foldl (accumulatePending t) p).changeType ∧
      ∀ ty ∈ events.map (fun e => detect t e.contentChanges),
        CHANGE_TYPE_PRIORITY ty ≤
          CHANGE_TYPE_PRIORITY (events.foldl (accumulatePending t) p).changeType := by
  intro events
  induction events with
  | nil =>
      intro p
      exact ⟨Or.inl rfl, Nat.le_refl _, by simp⟩
  | cons e rest ih =>
      intro p
      rw [List.foldl_cons]
      obtain ⟨hmem, hub, hall⟩ := ih (accumulatePending t p e)
      have hq : (accumulatePending t p e).changeType =
          (if CHANGE_TYPE_PRIORITY (detect t e.contentChanges) >
              CHANGE_TYPE_PRIORITY p.changeType
           then detect t e.contentChanges else p.changeType) := rfl
      refine ⟨?_, ?_, ?_⟩
      · rcases hmem with h | h
        · rw [h, hq]
          by_cases hgt : CHANGE_TYPE_PRIORITY (detect t e.contentChanges) >
              CHANGE_TYPE_PRIORITY p.changeType
          · rw [if_pos hgt]
            exact Or.inr (by simp)
          · rw [if_neg hgt]
            exact Or.inl rfl
        · exact Or.inr (by simp only [List.map_cons]; exact List.mem_cons_of_mem _ h)
      · refine Nat.le_trans ?_ hub
        rw [hq]
        by_cases hgt : CHANGE_TYPE_PRIORITY (detect t e.contentChanges) >
            CHANGE_TYPE_PRIORITY p.changeType
        · rw [if_pos hgt]
          exact Nat.le_of_lt hgt
        · rw [if_neg hgt]
      · intro ty hty
        simp only [List.map_cons, List.mem_cons] at hty
        rcases hty with h | h
        · subst h
          refine Nat.le_trans ?_ hub
          rw [hq]
          by_cases hgt : CHANGE_TYPE_PRIORITY (detect t e.contentChanges) >
              CHANGE_TYPE_PRIORITY p.changeType
          · rw [if_pos hgt]
          · rw [if_neg hgt]
            exact Nat.le_of_not_lt hgt
        · exact hall ty h

/-- C6: for every file and every sequence of classified edits delivered
between two flush ticks (all for that file, on the file scheme, not
excluded, each with at least one range), the pending entry after folding
the edits holds a change_type that occurs among the edits' classified
types and whose CHANGE_TYPE_PRIORITY — the total order typing < delete <
refactor < paste — dominates them all, together with cumulative counters
equal to the sums of inserted and removed characters over all edits. -/
theorem C6_aggregation_max_type_and_sums (ctx : EngineCtx) (st : EngineState)
    (f : String) (events : List DocEvent)
    (hev : ∀ e ∈ events, e.fsPath = f ∧ e.scheme = "file" ∧
      ctx.excluded (ctx.relPath e.fsPath) = false ∧ e.contentChanges ≠ [])
    (hstart : lookupA st.pendingChanges f = none)
    (hne : events ≠ []) :
    ∃ p, lookupA (events.foldl (handleDocumentChange ctx) st).pendingChanges f = some p ∧
      p.changeType ∈ events.map (fun e => detect ctx.pasteThreshold e.contentChanges) ∧
      (∀ ty ∈ events.map (fun e => detect ctx.pasteThreshold e.contentChanges),
        CHANGE_TYPE_PRIORITY ty ≤ CHANGE_TYPE_PRIORITY p.changeType) ∧
      p.charsAdded = (events.map eventCharsAdded).sum ∧
      p.charsRemoved = (events.map eventCharsRemoved).sum := by
  cases events with
  | nil => exact absurd rfl hne
  | cons e rest =>
      obtain ⟨hf, hs, hx, hn⟩ := hev e (List.mem_cons_self e rest)
      have h0 := handleDocumentChange_pending_none ctx st e hn hs hx (by rw [hf]; exact hstart)
      rw [hf] at h0
      have hfold := handleDocumentChange_foldl ctx f rest (handleDocumentChange ctx st e)
        { changeType := detect ctx.pasteThreshold e.contentChanges
          charsAdded := eventCharsAdded e
          charsRemoved := eventCharsRemoved e }
        (fun x hx2 => hev x (List.mem_cons_of_mem e hx2)) h0
      rw [List.foldl_cons]
      refine ⟨_, hfold, ?_, ?_, ?_, ?_⟩
      · obtain ⟨hmem, _, _⟩ := foldl_accumulatePending_changeType ctx.pasteThreshold rest
          { changeType := detect ctx.pasteThreshold e.contentChanges
            charsAdded := eventCharsAdded e
            charsRemoved := eventCharsRemoved e }
        rcases hmem with h | h
        · rw [h]
          simp
        · simp only [List.map_cons]
          exact List.mem_cons_of_mem _ h
      · obtain ⟨_, hub, hall⟩ := foldl_accumulatePending_changeType ctx.pasteThreshold rest
          { changeType := detect ctx.pasteThreshold e.contentChanges
            charsAdded := eventCharsAdded e
            charsRemoved := eventCharsRemoved e }
        intro ty hty
        simp only [List.map_cons, List.mem_cons] at hty
        rcases hty with h | h
        · subst h
          exact hub
        · exact hall ty h
      · rw [foldl_accumulatePending_charsAdded]
        simp
      · rw [foldl_accumulatePending_charsRemoved]
        simp

/-- Witness for C6: a typing edit, then a 60-character paste, then
another typing edit on main.ts aggregate to a pending entry whose
change_type is the priority maximum and whose counters are the sums. -/
theorem C6_aggregation_max_type_and_sums_witness :
    ∃ p, lookupA (([evTyping1, evPaste, evTyping2].foldl
        (handleDocumentChange ctxFail) stEmpty)).pendingChanges "main.ts" = some p ∧
      p.changeType ∈ [evTyping1, evPaste, evTyping2].map
        (fun e => detect ctxFail.pasteThreshold e.contentChanges) ∧
      (∀ ty ∈ [evTyping1, evPaste, evTyping2].map
          (fun e => detect ctxFail.pasteThreshold e.contentChanges),
        CHANGE_TYPE_PRIORITY ty ≤ CHANGE_TYPE_PRIORITY p.changeType) ∧
      p.charsAdded = ([evTyping1, evPaste, evTyping2].map eventCharsAdded).sum ∧
      p.charsRemoved = ([evTyping1, evPaste, evTyping2].map eventCharsRemoved).sum :=
  C6_aggregation_max_type_and_sums ctxFail stEmpty "main.ts"
    [evTyping1, evPaste, evTyping2] (by decide) (by decide) (by decide)

end CodeProof
